import Mathlib

/-!
Shallow embedding of the syncthing-cli repository (src/api.rs, src/config.rs,
src/main.rs) for checking the natural-language specification against the code.

Conventions of the embedding:
* JSON documents (serde_json::Value) are modelled by the inductive `Value`
  below; JSON numbers are modelled as integers, which covers every numeric
  field the claims mention (floating-point formatting is out of scope).
* The HTTP transport (reqwest) is external to the repository.  A finished
  exchange is modelled by `TransportOutcome`: either a transport failure or a
  `Response` carrying the numeric status and the body.  The body is recorded
  by what the external JSON parser would do with its text — it is empty, or
  parses to a `Value`, or is non-empty and malformed — because those are
  exactly the distinctions `Client::get` / `Client::post` branch on.
* The filesystem is modelled by passing file contents explicitly
  (`Option String`: `none` = the file does not exist).
-/

namespace Syncthing

/-- JSON-like structured value (serde_json::Value), numbers as integers. -/
inductive Value where
  | null : Value
  | bool (b : Bool) : Value
  | num (n : Int) : Value
  | str (s : String) : Value
  | arr (elems : List Value) : Value
  | obj (fields : List (String × Value)) : Value


/-- The body of an HTTP response, recorded by its parse outcome:
`empty` — the body text is empty; `json v` — the text parses to `v`;
`malformed` — the text is non-empty and fails to parse. -/
inductive Body where
  | empty : Body
  | json (v : Value) : Body
  | malformed : Body


/-- An HTTP response: numeric status code and body. -/
structure Response where
  status : Nat
  body : Body


/-- Outcome of sending a request over the transport. -/
inductive TransportOutcome where
  | failure : TransportOutcome
  | response (r : Response) : TransportOutcome


/-- Result of a client call.  The Rust code uses `anyhow` string errors; the
three failing constructors are the three classes its `get`/`post` produce:
`bail!("API error: {status}")`, the "Failed to send request" context on the
transport, and the "Failed to parse response" context on JSON decoding. -/
inductive ApiResult where
  | ok (v : Value) : ApiResult
  | apiError (status : Nat) : ApiResult
  | transportError : ApiResult
  | decodeError : ApiResult


/-- reqwest `StatusCode::is_success`: 200 ≤ status < 300. -/
def is_success (status : Nat) : Bool := 200 ≤ status && status < 300

/-- The API client (src/api.rs `Client`): api key and base URL. -/
structure Client where
  api_key : String
  base_url : String


/-- Strip every trailing `/` (Rust `str::trim_end_matches('/')`). -/
def trimTrailingSlashes (s : String) : String :=
  ⟨(s.data.reverse.dropWhile (· == '/')).reverse⟩

/-- `Client::new` (src/api.rs:13-22): store the key and the base URL with
trailing slashes stripped.  (The builder also relaxes certificate checking;
that configures the external transport and has no observable effect here.) -/
def Client.new (api_key : String) (base_url : String) : Client :=
  { api_key := api_key, base_url := trimTrailingSlashes base_url }

/-- The URL a call targets (src/api.rs:25): `base_url + endpoint`. -/
def Client.request_url (c : Client) (endpoint : String) : String :=
  c.base_url ++ endpoint

/-- `Client::get` (src/api.rs:24-39) applied to the outcome of its request:
transport failure → transport error; non-2xx → `apiError status`;
otherwise parse the body as JSON (an empty body fails to parse). -/
def Client.get (outcome : TransportOutcome) : ApiResult :=
  match outcome with
  | .failure => .transportError
  | .response resp =>
    if !is_success resp.status then .apiError resp.status
    else
      match resp.body with
      | .json v => .ok v
      | .empty => .decodeError
      | .malformed => .decodeError

/-- `Client::post` (src/api.rs:41-62) applied to the outcome of its request.
`body` is the optional JSON request body (it is serialized into the request
and does not influence how the response is handled).  A 2xx response with an
empty body text is normalized to `Value.null`; a non-empty body is parsed as
for GET. -/
def Client.post (body : Option Value) (outcome : TransportOutcome) : ApiResult :=
  match body, outcome with
  | _, .failure => .transportError
  | _, .response resp =>
    if !is_success resp.status then .apiError resp.status
    else
      match resp.body with
      | .empty => .ok .null
      | .json v => .ok v
      | .malformed => .decodeError

/-! ### src/config.rs -/

/-- The two named error conditions of config.rs: the bail! at
src/config.rs:69-73 (file absent, message names the path searched) and the
bail! at src/config.rs:83 (file present but no `<apikey>` element). -/
inductive ConfigError where
  | credentialsNotFound (path : String) : ConfigError
  | noApikeyElement : ConfigError
deriving DecidableEq


/-- The message text each config.rs bail! produces.  For
`credentialsNotFound` the Rust format string interpolates the `PathBuf` with
`{:?}`, which renders the path quoted. -/
def ConfigError.message : ConfigError → String
  | .credentialsNotFound path =>
      "No API key found. Either configure with 'syncthing config --api-key <KEY>' " ++
      "or ensure syncthing is running with config at \"" ++ path ++ "\""
  | .noApikeyElement => "No apikey element found in config"

/-- The persisted preference file (src/config.rs `Config`): two optional
string fields. -/
structure Config where
  api_key : Option String
  host : Option String


/-- `Config::default()`: both fields absent. -/
def Config.default : Config := { api_key := none, host := none }

/-- `Config::host` (src/config.rs:13-15): saved host or the hard-coded
default. -/
def Config.hostValue (c : Config) : String :=
  c.host.getD "http://localhost:8384"

/-- Byte index of the first occurrence of `pat` in `l`
(Rust `str::find` on these ASCII patterns; characters model bytes). -/
def findSub (pat : List Char) : List Char → Option Nat
  | [] => if pat.isPrefixOf ([] : List Char) then some 0 else none
  | c :: rest =>
      if pat.isPrefixOf (c :: rest) then some 0
      else (findSub pat rest).map (· + 1)

/-- `extract_api_key_from_xml` (src/config.rs:76-84): find `"<apikey>"`,
step 8 characters past its start, find `"</apikey>"` in the remainder, and
return the slice between — otherwise bail. -/
def extract_api_key_from_xml (content : String) : Except ConfigError String :=
  match findSub "<apikey>".data content.data with
  | some s0 =>
      match findSub "</apikey>".data (content.data.drop (s0 + 8)) with
      | some e => .ok ⟨(content.data.drop (s0 + 8)).take e⟩
      | none => .error .noApikeyElement
  | none => .error .noApikeyElement

/-- `extract_api_key_from_path` (src/config.rs:62-74).  `content` is the
daemon config file's text, `none` when the file does not exist; in that case
the error names `path`. -/
def extract_api_key_from_path (content : Option String) (path : String) :
    Except ConfigError String :=
  match content with
  | some c => extract_api_key_from_xml c
  | none => .error (.credentialsNotFound path)

/-- `get_api_key` (src/config.rs:50-60): a saved preference key wins;
otherwise fall back to scraping the daemon's config file. -/
def get_api_key (cfg : Config) (stContent : Option String) (stPath : String) :
    Except ConfigError String :=
  match cfg.api_key with
  | some key => .ok key
  | none => extract_api_key_from_path stContent stPath

/-- `load_config` (src/config.rs:32-39).  The store is the parsed content of
the preference file (`none` = file absent); the on-disk JSON shape is the
external serde layer, whose round-trip is the identity on `Config`. -/
def load_config (store : Option Config) : Config :=
  store.getD Config.default

/-- `save_config` (src/config.rs:41-48): the store now holds `cfg`. -/
def save_config (cfg : Config) : Option Config :=
  some cfg

/-- The `Commands::Config` handler (src/main.rs:132-151): with neither flag
it only displays the config; otherwise it loads, overwrites exactly the
supplied fields, and saves. -/
def config_command (store : Option Config) (api_key host : Option String) :
    Option Config :=
  if api_key.isNone && host.isNone then store
  else
    let cfg := load_config store
    let cfg := match api_key with
      | some key => { cfg with api_key := some key }
      | none => cfg
    let cfg := match host with
      | some h => { cfg with host := some h }
      | none => cfg
    save_config cfg

/-! ### src/main.rs: client construction -/

/-- Rust `str::starts_with` with a string pattern. -/
def str_starts_with (s pre : String) : Bool :=
  pre.data.isPrefixOf s.data

/-- Base-URL selection in `get_client` (src/main.rs:69-86): an explicit
override is scheme-prefixed with `http://` when it has no scheme; with no
override, the saved host (or the default) is used as is. -/
def resolve_host (host_override : Option String) (cfg : Config) : String :=
  match host_override with
  | some h =>
      if str_starts_with h "http://" || str_starts_with h "https://" then h
      else "http://" ++ h
  | none => cfg.hostValue

/-- `get_client` (src/main.rs:69-86) after credentials resolved: build the
client from the resolved host. -/
def get_client (host_override : Option String) (cfg : Config)
    (api_key : String) : Client :=
  Client.new api_key (resolve_host host_override cfg)

/-! ### src/main.rs: defensive field access in the presentation layer -/

/-- `Value::get(key)` on an object (serde_json index lookup): first matching
field, `none` on a non-object or a missing key. -/
def Value.get (v : Value) (key : String) : Option Value :=
  match v with
  | .obj fields =>
      match fields.find? (fun f => f.1 == key) with
      | some f => some f.2
      | none => none
  | _ => none

/-- `Value::as_u64`: a non-negative number, else `none`. -/
def Value.as_u64 : Value → Option Nat
  | .num n => if 0 ≤ n then some n.toNat else none
  | _ => none

/-- `Value::as_str`. -/
def Value.as_str : Value → Option String
  | .str s => some s
  | _ => none

/-- `Value::as_bool`. -/
def Value.as_bool : Value → Option Bool
  | .bool b => some b
  | _ => none

/-- `Value::as_f64` (numbers modelled as integers). -/
def Value.as_f64 : Value → Option Int
  | .num n => some n
  | _ => none

/-- The values the `Commands::Status` handler (src/main.rs:154-197) extracts
before formatting. -/
structure StatusView where
  version : String
  uptime : Nat
  alloc : Nat
  sys : Nat
  globalBytes : Nat
  needBytes : Nat
  pct : Int


/-- Field extraction of the `Commands::Status` handler (src/main.rs:154-197):
every read is `get(..).and_then(as_..).unwrap_or(default)`. -/
def statusView (status version completion : Value) : StatusView :=
  { version := ((version.get "version").bind Value.as_str).getD "unknown"
    uptime := ((status.get "uptime").bind Value.as_u64).getD 0
    alloc := ((status.get "alloc").bind Value.as_u64).getD 0
    sys := ((status.get "sys").bind Value.as_u64).getD 0
    globalBytes := ((completion.get "globalBytes").bind Value.as_u64).getD 0
    needBytes := ((completion.get "needBytes").bind Value.as_u64).getD 0
    pct := ((completion.get "completion").bind Value.as_f64).getD 100 }

/-- The `paused` read of the `Commands::Folders` handler
(src/main.rs:216-219): missing or mistyped defaults to `false`. -/
def folderPaused (folder : Value) : Bool :=
  ((folder.get "paused").bind Value.as_bool).getD false

/-! ### src/main.rs: short device IDs (byte slicing) -/

/-- UTF-8 encoding of one character (Rust `String` stores UTF-8 bytes). -/
def utf8EncodeChar (c : Char) : List Nat :=
  let v := c.toNat
  if v < 128 then [v]
  else if v < 2048 then
    [192 + v / 64, 128 + v % 64]
  else if v < 65536 then
    [224 + v / 4096, 128 + (v / 64) % 64, 128 + v % 64]
  else
    [240 + v / 262144, 128 + (v / 4096) % 64, 128 + (v / 64) % 64, 128 + v % 64]

/-- The UTF-8 byte sequence of a string. -/
def utf8Encode (s : String) : List Nat :=
  (s.data.map utf8EncodeChar).flatten

/-- Rust `str::is_char_boundary(i)`: true at 0 and at the end; elsewhere the
byte at `i` must not be a continuation byte (0x80–0xBF).  Slicing
`&s[..i]` panics exactly when this is false. -/
def is_char_boundary (bytes : List Nat) (i : Nat) : Bool :=
  if i = 0 then true
  else
    match bytes.get? i with
    | none => i == bytes.length
    | some b => !(128 ≤ b && b < 192)

/-- The device ID string the `Commands::Devices` handler reads
(src/main.rs:275-279): `deviceID` as a string, defaulting to `"?"`. -/
def deviceIdOf (device : Value) : String :=
  ((device.get "deviceID").bind Value.as_str).getD "?"

/-- Whether the short-ID slice `&id[..7.min(id.len())]`
(src/main.rs:280, and the same expression at src/main.rs:371 and
src/main.rs:391 in the `Commands::Pending` handler) is panic-free for `id`:
the byte index `min 7 len` falls on a character boundary. -/
def short_id_slice_ok (id : String) : Bool :=
  let bytes := utf8Encode id
  is_char_boundary bytes (min 7 bytes.length)

/-! ## Theorems for the claims -/

/-- C1: for every response with a 2xx status whose body parses as a JSON
document `v`, the client's GET primitive returns exactly `v` — structurally
equal to what the server sent, with nothing added, removed, or altered. -/
theorem claim_C1_get_returns_parsed_json (s : Nat) (v : Value)
    (h : is_success s = true) :
    Client.get (.response ⟨s, .json v⟩) = .ok v := by
  simp [Client.get, h]

/-- Witness for C1 at status 200 and the document
`{"alloc": 12345678, "sys": 23456789, "uptime": 3600}`. -/
theorem claim_C1_witness :
    is_success 200 = true ∧
    Client.get (.response ⟨200, .json (.obj [("alloc", .num 12345678),
        ("sys", .num 23456789), ("uptime", .num 3600)])⟩) =
      .ok (.obj [("alloc", .num 12345678), ("sys", .num 23456789),
        ("uptime", .num 3600)]) :=
  ⟨by decide, claim_C1_get_returns_parsed_json 200 _ (by decide)⟩

/-- C2: every non-2xx response makes both the GET and the POST primitive
return an `apiError` carrying exactly the response's numeric status; and
every call's result is `ok` or exactly one of the three error classes
`apiError` / `transportError` / `decodeError`. -/
theorem claim_C2_api_error_status_and_taxonomy :
    (∀ (s : Nat) (body : Body) (reqBody : Option Value),
        is_success s = false →
        Client.get (.response ⟨s, body⟩) = .apiError s ∧
        Client.post reqBody (.response ⟨s, body⟩) = .apiError s) ∧
    (∀ (outcome : TransportOutcome) (reqBody : Option Value),
        ((∃ v, Client.get outcome = .ok v) ∨
          (∃ st, Client.get outcome = .apiError st) ∨
          Client.get outcome = .transportError ∨
          Client.get outcome = .decodeError) ∧
        ((∃ v, Client.post reqBody outcome = .ok v) ∨
          (∃ st, Client.post reqBody outcome = .apiError st) ∨
          Client.post reqBody outcome = .transportError ∨
          Client.post reqBody outcome = .decodeError)) := by
  constructor
  · intro s body reqBody h
    constructor <;> simp [Client.get, Client.post, h]
  · intro outcome reqBody
    cases outcome with
    | failure => simp [Client.get, Client.post]
    | response resp =>
      by_cases h : is_success resp.status = true <;>
        cases hb : resp.body <;>
        simp [Client.get, Client.post, h, hb]

/-- Witness for C2 at a 401 response. -/
theorem claim_C2_witness :
    is_success 401 = false ∧
    Client.get (.response ⟨401, .empty⟩) = .apiError 401 ∧
    Client.post none (.response ⟨401, .empty⟩) = .apiError 401 :=
  ⟨by decide,
    (claim_C2_api_error_status_and_taxonomy.1 401 .empty none (by decide)).1,
    (claim_C2_api_error_status_and_taxonomy.1 401 .empty none (by decide)).2⟩

/-- C3: a POST whose response is 2xx with an empty body returns the explicit
"no content" value `Value.null` (not a decode failure); a 2xx response with
a non-empty body is parsed exactly as for GET, failing with `decodeError`
only when the body does not parse. -/
theorem claim_C3_post_empty_body_no_content (s : Nat) (reqBody : Option Value)
    (h : is_success s = true) :
    Client.post reqBody (.response ⟨s, .empty⟩) = .ok .null ∧
    (∀ v, Client.post reqBody (.response ⟨s, .json v⟩) = .ok v ∧
      Client.post reqBody (.response ⟨s, .json v⟩) =
        Client.get (.response ⟨s, .json v⟩)) ∧
    Client.post reqBody (.response ⟨s, .malformed⟩) = .decodeError := by
  refine ⟨by simp [Client.post, h], fun v => ⟨?_, ?_⟩, by simp [Client.post, h]⟩ <;>
    simp [Client.post, Client.get, h]

/-- Witness for C3 at status 200 (the `/rest/db/scan` shape). -/
theorem claim_C3_witness :
    is_success 200 = true ∧
    Client.post none (.response ⟨200, .empty⟩) = .ok .null :=
  ⟨by decide, (claim_C3_post_empty_body_no_content 200 none (by decide)).1⟩

/-- C4: API key resolution precedence — a saved preference key is returned
as is, whatever the daemon's configuration file holds (it is never
consulted); with no saved key, the key is extracted from the daemon's
configuration document; and when neither source yields a key (no file, or a
file the extraction fails on), resolution fails. -/
theorem claim_C4_api_key_precedence :
    (∀ (k : String) (host : Option String) (stContent : Option String)
        (path : String),
        get_api_key ⟨some k, host⟩ stContent path = .ok k) ∧
    (∀ (host : Option String) (c : String) (path : String),
        get_api_key ⟨none, host⟩ (some c) path = extract_api_key_from_xml c) ∧
    (∀ (host : Option String) (path : String),
        ∃ e, get_api_key ⟨none, host⟩ none path = .error e) ∧
    (∀ (host : Option String) (c : String) (path : String) (e : ConfigError),
        extract_api_key_from_xml c = .error e →
        get_api_key ⟨none, host⟩ (some c) path = .error e) := by
  refine ⟨fun k host stContent path => rfl, fun host c path => rfl,
    fun host path => ⟨.credentialsNotFound path, rfl⟩, fun host c path e he => ?_⟩
  simpa [get_api_key, extract_api_key_from_path] using he

/-- Witness for C4: a saved key `"saved"` wins over a scrapable daemon file,
and a daemon file without the marker element makes resolution fail. -/
theorem claim_C4_witness :
    get_api_key ⟨some "saved", none⟩ (some "<gui><apikey>xml</apikey></gui>")
        "/p/config.xml" = .ok "saved" ∧
    get_api_key ⟨none, none⟩ (some "<configuration></configuration>")
        "/p/config.xml" = .error .noApikeyElement :=
  ⟨claim_C4_api_key_precedence.1 "saved" none
      (some "<gui><apikey>xml</apikey></gui>") "/p/config.xml",
    claim_C4_api_key_precedence.2.2.2 none "<configuration></configuration>"
      "/p/config.xml" .noApikeyElement (by rfl)⟩

/-- C8: the `config` subcommand merges into the existing saved preference —
after the save, each supplied field holds its new value, each field not
supplied keeps its previous value, and a load performed after the save
reflects exactly that merged result. -/
theorem claim_C8_config_save_merges (store : Option Config)
    (api_key host : Option String) :
    (∀ k, api_key = some k →
      (load_config (config_command store api_key host)).api_key = some k) ∧
    (api_key = none →
      (load_config (config_command store api_key host)).api_key =
        (load_config store).api_key) ∧
    (∀ s, host = some s →
      (load_config (config_command store api_key host)).host = some s) ∧
    (host = none →
      (load_config (config_command store api_key host)).host =
        (load_config store).host) := by
  cases api_key <;> cases host <;>
    simp [config_command, load_config, save_config]

/-- Witness for C8: saving only `api_key` over a prior config keeps the
prior host and updates the key. -/
theorem claim_C8_witness :
    (load_config (config_command (some ⟨some "old", some "http://h:1"⟩)
        (some "new") none)).api_key = some "new" ∧
    (load_config (config_command (some ⟨some "old", some "http://h:1"⟩)
        (some "new") none)).host = some "http://h:1" := by
  have t := claim_C8_config_save_merges (some ⟨some "old", some "http://h:1"⟩)
    (some "new") none
  exact ⟨t.1 "new" rfl, (t.2.2.2 rfl).trans rfl⟩

/-- The head of `dropWhile (· == '/')` is never a slash. -/
lemma head_dropWhile_slash (l : List Char) :
    ∀ c, (l.dropWhile (· == '/')).head? = some c → (c == '/') = false := by
  induction l with
  | nil => intro c h; simp [List.dropWhile] at h
  | cons a t ih =>
    intro c h
    rw [List.dropWhile_cons] at h
    by_cases ha : (a == '/') = true
    · rw [if_pos ha] at h
      exact ih c h
    · rw [if_neg ha] at h
      simp at h
      simpa [← h] using ha

/-- C5 counterexample to the claim as stated: a saved-preference host
without a scheme is used as is — it is not prefixed with `http://`. -/
theorem claim_C5_counterexample :
    (get_client none ⟨none, some "192.168.2.32:8384"⟩ "key").base_url =
      "192.168.2.32:8384" ∧
    str_starts_with "192.168.2.32:8384" "http://" = false ∧
    str_starts_with "192.168.2.32:8384" "https://" = false := by
  refine ⟨by decide, by decide, by decide⟩

/-- C5 as amended: only an explicit per-invocation override lacking an
`http://` or `https://` scheme is prefixed with `http://`; a saved
preference host is used as is; and every trailing slash of the resulting
base URL is stripped before paths are concatenated (the stripped string
never ends in `/`, and the original is the stripped string plus some run of
slashes). -/
theorem claim_C5_amended :
    (∀ (h : String) (cfg : Config) (key : String),
        (str_starts_with h "http://" || str_starts_with h "https://") = false →
        (get_client (some h) cfg key).base_url =
          trimTrailingSlashes ("http://" ++ h)) ∧
    (∀ (h : String) (cfg : Config) (key : String),
        (str_starts_with h "http://" || str_starts_with h "https://") = true →
        (get_client (some h) cfg key).base_url = trimTrailingSlashes h) ∧
    (∀ (ak : Option String) (s key : String),
        (get_client none ⟨ak, some s⟩ key).base_url = trimTrailingSlashes s) ∧
    (∀ u : String, (trimTrailingSlashes u).data.getLast? ≠ some '/' ∧
        ∃ n, u.data = (trimTrailingSlashes u).data ++ List.replicate n '/') := by
  refine ⟨fun h cfg key hs => ?_, fun h cfg key hs => ?_,
    fun ak s key => ?_, fun u => ⟨?_, ?_⟩⟩
  · simp [get_client, Client.new, resolve_host, hs]
  · simp [get_client, Client.new, resolve_host, hs]
  · simp [get_client, Client.new, resolve_host, Config.hostValue]
  · intro hlast
    rw [trimTrailingSlashes, List.getLast?_reverse] at hlast
    have := head_dropWhile_slash u.data.reverse '/' hlast
    simp at this
  · refine ⟨(u.data.reverse.takeWhile (· == '/')).length, ?_⟩
    have hsplit := List.takeWhile_append_dropWhile
      (p := fun c => c == '/') (l := u.data.reverse)
    have hrep : u.data.reverse.takeWhile (· == '/') =
        List.replicate (u.data.reverse.takeWhile (· == '/')).length '/' := by
      apply List.eq_replicate_of_mem
      intro b hb
      have := List.mem_takeWhile_imp hb
      simpa using this
    calc u.data = u.data.reverse.reverse := by rw [List.reverse_reverse]
      _ = (u.data.reverse.takeWhile (· == '/') ++
            u.data.reverse.dropWhile (· == '/')).reverse := by rw [hsplit]
      _ = (u.data.reverse.dropWhile (· == '/')).reverse ++
            (u.data.reverse.takeWhile (· == '/')).reverse := by
          rw [List.reverse_append]
      _ = (trimTrailingSlashes u).data ++
            List.replicate (u.data.reverse.takeWhile (· == '/')).length '/' := by
          rw [trimTrailingSlashes]
          rw [hrep, List.reverse_replicate, List.length_replicate]

/-- Witness for C5 as amended: an override without a scheme gets the
`http://` prefix and loses its trailing slash. -/
theorem claim_C5_witness :
    (get_client (some "192.168.2.32:8384/") Config.default "k").base_url =
      "http://192.168.2.32:8384" := by
  have t := claim_C5_amended.1 "192.168.2.32:8384/" Config.default "k"
    (by decide)
  exact t.trans (by decide)

/-- C9 counterexample to the claim as stated: in the Status handler a
missing or wrong-typed `completion` field is replaced by 100, not by zero. -/
theorem claim_C9_counterexample :
    ((Value.obj [("completion", Value.str "half")]).get "completion").bind
        Value.as_f64 = none ∧
    (statusView (.obj []) (.obj [])
        (.obj [("completion", .str "half")])).pct ≠ 0 :=
  ⟨rfl, by decide⟩

/-- C9 as amended: every field read of the presentation layer is total —
a missing or wrong-typed field is replaced by a sentinel default (zero for
the numeric fields other than the completion percentage, which defaults to
100; `"unknown"` for strings; `false` for booleans) and a present
well-typed field is passed through; `decodeError` arises only from a 2xx
body that fails to parse as JSON at all. -/
theorem claim_C9_amended :
    (∀ status version completion : Value,
      ((status.get "uptime").bind Value.as_u64 = none →
        (statusView status version completion).uptime = 0) ∧
      (∀ n, (status.get "uptime").bind Value.as_u64 = some n →
        (statusView status version completion).uptime = n) ∧
      ((status.get "alloc").bind Value.as_u64 = none →
        (statusView status version completion).alloc = 0) ∧
      ((version.get "version").bind Value.as_str = none →
        (statusView status version completion).version = "unknown") ∧
      (∀ s, (version.get "version").bind Value.as_str = some s →
        (statusView status version completion).version = s) ∧
      ((completion.get "completion").bind Value.as_f64 = none →
        (statusView status version completion).pct = 100) ∧
      (∀ p, (completion.get "completion").bind Value.as_f64 = some p →
        (statusView status version completion).pct = p)) ∧
    (∀ folder : Value, (folder.get "paused").bind Value.as_bool = none →
        folderPaused folder = false) ∧
    (∀ (s : Nat) (body : Body),
        Client.get (.response ⟨s, body⟩) = .decodeError →
        is_success s = true ∧ ∀ v, body ≠ .json v) := by
  refine ⟨fun status version completion =>
      ⟨fun h => ?_, fun n h => ?_, fun h => ?_, fun h => ?_, fun s h => ?_,
        fun h => ?_, fun p h => ?_⟩,
    fun folder h => ?_, fun s body h => ?_⟩
  · simp [statusView, h]
  · simp [statusView, h]
  · simp [statusView, h]
  · simp [statusView, h]
  · simp [statusView, h]
  · simp [statusView, h]
  · simp [statusView, h]
  · simp [folderPaused, h]
  · by_cases hs : is_success s = true
    · refine ⟨hs, fun v hv => ?_⟩
      subst hv
      simp [Client.get, hs] at h
    · simp [Client.get, hs] at h

/-- Witness for C9 as amended, at empty-object payloads: every field is
missing, and every displayed value is its sentinel. -/
theorem claim_C9_witness :
    (statusView (.obj []) (.obj []) (.obj [])).uptime = 0 ∧
    (statusView (.obj []) (.obj []) (.obj [])).version = "unknown" ∧
    (statusView (.obj []) (.obj []) (.obj [])).pct = 100 := by
  have t := claim_C9_amended.1 (.obj []) (.obj []) (.obj [])
  exact ⟨t.1 rfl, t.2.2.2.1 rfl, t.2.2.2.2.2.1 rfl⟩

/-- Every byte of the UTF-8 encoding of an all-ASCII string is below 128. -/
lemma utf8Encode_ascii_bytes {s : String} (h : ∀ c ∈ s.data, c.toNat < 128) :
    ∀ b ∈ utf8Encode s, b < 128 := by
  intro b hb
  simp only [utf8Encode, List.mem_flatten, List.mem_map] at hb
  obtain ⟨l, ⟨c, hc, rfl⟩, hbl⟩ := hb
  have hlt := h c hc
  simp [utf8EncodeChar, hlt] at hbl
  omega

/-- An all-ASCII string's short-ID byte index is always a char boundary. -/
lemma short_id_ascii (s : String) (h : ∀ c ∈ s.data, c.toNat < 128) :
    short_id_slice_ok s = true := by
  have hb := utf8Encode_ascii_bytes h
  unfold short_id_slice_ok
  rw [is_char_boundary]
  by_cases h0 : min 7 (utf8Encode s).length = 0
  · simp [h0]
  · rw [if_neg h0]
    cases hg : (utf8Encode s).get? (min 7 (utf8Encode s).length) with
    | some b =>
      have hlt : b < 128 := hb b (List.get?_mem hg)
      simp
      omega
    | none =>
      have hlen : (utf8Encode s).length ≤ min 7 (utf8Encode s).length :=
        List.get?_eq_none.mp hg
      have hmin : min 7 (utf8Encode s).length ≤ (utf8Encode s).length :=
        Nat.min_le_right _ _
      simp
      omega

/-- C10 counterexample to the claim as stated: the device ID `"ééééé"`
(a well-formed JSON string the daemon could send as `deviceID`) puts byte
index `min 7 len` = 7 in the middle of a two-byte character, so the slice
`&id[..7.min(id.len())]` panics. -/
theorem claim_C10_counterexample :
    short_id_slice_ok (deviceIdOf (.obj [("deviceID", .str "ééééé")])) =
      false := by
  decide

/-- C10 as amended: for every device whose extracted ID is ASCII (as real
daemon device IDs are), the short-ID byte index `min 7 len` falls on a
character boundary, so the slice in the Devices and Pending handlers cannot
panic. -/
theorem claim_C10_amended (device : Value)
    (h : ∀ c ∈ (deviceIdOf device).data, c.toNat < 128) :
    short_id_slice_ok (deviceIdOf device) = true :=
  short_id_ascii _ h

/-- Witness for C10 as amended at an ASCII device ID. -/
theorem claim_C10_witness :
    short_id_slice_ok (deviceIdOf (.obj [("deviceID",
        .str "ABCDEFG-HIJKLMN-OPQRSTU")])) = true :=
  claim_C10_amended (.obj [("deviceID", .str "ABCDEFG-HIJKLMN-OPQRSTU")])
    (by decide)

/-- If `findSub` reports index `i`, the pattern is a prefix of `l.drop i`. -/
lemma findSub_prefix (pat : List Char) :
    ∀ (l : List Char) (i : Nat), findSub pat l = some i →
      pat.isPrefixOf (l.drop i) = true := by
  intro l
  induction l with
  | nil =>
    intro i h
    simp only [findSub] at h
    by_cases hp : pat.isPrefixOf ([] : List Char) = true
    · rw [if_pos hp] at h
      injection h with h
      subst h
      simpa using hp
    · rw [if_neg hp] at h
      cases h
  | cons c rest ih =>
    intro i h
    simp only [findSub] at h
    by_cases hp : pat.isPrefixOf (c :: rest) = true
    · rw [if_pos hp] at h
      injection h with h
      subst h
      simpa using hp
    · rw [if_neg hp, Option.map_eq_some'] at h
      obtain ⟨j, hj, hji⟩ := h
      subst hji
      simpa using ih j hj

/-- `findSub` reports the first occurrence: no earlier index carries the
pattern. -/
lemma findSub_min (pat : List Char) :
    ∀ (l : List Char) (i : Nat), findSub pat l = some i →
      ∀ j, j < i → pat.isPrefixOf (l.drop j) = false := by
  intro l
  induction l with
  | nil =>
    intro i h j hj
    simp only [findSub] at h
    by_cases hp : pat.isPrefixOf ([] : List Char) = true
    · rw [if_pos hp] at h
      injection h with h
      omega
    · rw [if_neg hp] at h
      cases h
  | cons c rest ih =>
    intro i h j hj
    simp only [findSub] at h
    by_cases hp : pat.isPrefixOf (c :: rest) = true
    · rw [if_pos hp] at h
      injection h with h
      omega
    · rw [if_neg hp, Option.map_eq_some'] at h
      obtain ⟨j', hj', hji⟩ := h
      subst hji
      cases j with
      | zero =>
        rw [List.drop_zero]
        simp only [Bool.not_eq_true] at hp
        exact hp
      | succ k => simpa using ih j' hj' k (by omega)

/-- `findSub` finds some index at or before any position carrying the
pattern. -/
lemma findSub_complete (pat : List Char) :
    ∀ (l : List Char) (k : Nat), pat.isPrefixOf (l.drop k) = true →
      ∃ i, i ≤ k ∧ findSub pat l = some i := by
  intro l
  induction l with
  | nil =>
    intro k h
    have h' : pat.isPrefixOf ([] : List Char) = true := by simpa using h
    exact ⟨0, Nat.zero_le k, by simp [findSub, h']⟩
  | cons c rest ih =>
    intro k h
    by_cases hp : pat.isPrefixOf (c :: rest) = true
    · exact ⟨0, Nat.zero_le k, by simp [findSub, hp]⟩
    · cases k with
      | zero => exact absurd (by simpa using h) hp
      | succ k' =>
        obtain ⟨i, hik, hf⟩ := ih k' (by simpa using h)
        exact ⟨i + 1, by omega, by simp [findSub, hp, hf]⟩

/-- If the pattern is not an infix of the first `m + pat.length - 1`
elements, it occurs at no index below `m`. -/
lemma no_occ_of_not_infix (pat l : List Char) (m : Nat) (hne : pat ≠ [])
    (h : ¬ pat <:+: l.take (m + pat.length - 1)) :
    ∀ j, j < m → pat.isPrefixOf (l.drop j) = false := by
  intro j hj
  by_contra hcon
  have hb : pat.isPrefixOf (l.drop j) = true := by
    cases hb' : pat.isPrefixOf (l.drop j)
    · exact absurd hb' hcon
    · rfl
  have hpre : pat <+: l.drop j := List.isPrefixOf_iff_prefix.mp hb
  obtain ⟨t, ht⟩ := hpre
  have hpl : 0 < pat.length := List.length_pos.mpr hne
  have hjlen : j + pat.length ≤ l.length := by
    by_cases hjl : j ≤ l.length
    · have hd1 : (l.drop j).length = l.length - j := List.length_drop j l
      have hd2 : (l.drop j).length = pat.length + t.length := by
        rw [← ht, List.length_append]
      omega
    · have hnil : l.drop j = [] := List.drop_eq_nil_of_le (by omega)
      rw [hnil] at ht
      exact absurd (List.append_eq_nil.mp ht).1 hne
  have htake : l.take (j + pat.length) = l.take j ++ pat := by
    rw [List.take_add]
    congr 1
    rw [← ht]
    exact List.take_left pat t
  have hinf : pat <:+: l.take (j + pat.length) := by
    rw [htake]
    exact ⟨l.take j, [], by simp⟩
  have hsub : l.take (j + pat.length) <+: l.take (m + pat.length - 1) := by
    have heq : l.take (j + pat.length) =
        (l.take (m + pat.length - 1)).take (j + pat.length) := by
      rw [List.take_take]
      congr 1
      omega
    rw [heq]
    exact List.take_prefix _ _
  exact h (hinf.trans hsub.isInfix)

/-- On `pre ++ pat ++ rest`, with no occurrence of `pat` inside
`pre ++ pat.dropLast`, `findSub` reports exactly `pre.length`. -/
lemma findSub_at_append (pre pat rest : List Char) (hne : pat ≠ [])
    (h : ¬ pat <:+: (pre ++ pat.dropLast)) :
    findSub pat (pre ++ (pat ++ rest)) = some pre.length := by
  have hpl : 0 < pat.length := List.length_pos.mpr hne
  have hocc : pat.isPrefixOf ((pre ++ (pat ++ rest)).drop pre.length) = true := by
    rw [List.drop_left]
    exact List.isPrefixOf_iff_prefix.mpr ⟨rest, rfl⟩
  obtain ⟨i, hile, hf⟩ :=
    findSub_complete pat (pre ++ (pat ++ rest)) pre.length hocc
  have htk : (pre ++ (pat ++ rest)).take (pre.length + pat.length - 1) =
      pre ++ pat.dropLast := by
    have heq : pre.length + pat.length - 1 = pre.length + (pat.length - 1) := by
      omega
    rw [heq, List.take_add, List.take_left, List.drop_left]
    congr 1
    rw [List.take_append_of_le_length (by omega), List.dropLast_eq_take]
  have hno := no_occ_of_not_infix pat (pre ++ (pat ++ rest)) pre.length hne
    (by rw [htk]; exact h)
  have hnotlt : ¬ i < pre.length := by
    intro hlt
    have h1 := findSub_prefix pat (pre ++ (pat ++ rest)) i hf
    have h2 := hno i hlt
    rw [h1] at h2
    cases h2
  have hieq : i = pre.length := by omega
  subst hieq
  exact hf

/-- `extract_api_key_from_xml` unfolded at known `findSub` results. -/
lemma extract_ok_of_finds (content : String) (s0 e : Nat)
    (hf1 : findSub "<apikey>".data content.data = some s0)
    (hf2 : findSub "</apikey>".data (content.data.drop (s0 + 8)) = some e) :
    extract_api_key_from_xml content =
      .ok ⟨(content.data.drop (s0 + 8)).take e⟩ := by
  simp only [extract_api_key_from_xml, hf1, hf2]

/-- Success half of C6: extraction on any explicit decomposition with no
earlier occurrence of either marker returns the text between the markers,
verbatim. -/
lemma extract_between (pre mid post : List Char)
    (h1 : ¬ "<apikey>".data <:+: (pre ++ "<apikey>".data.dropLast))
    (h2 : ¬ "</apikey>".data <:+: (mid ++ "</apikey>".data.dropLast)) :
    extract_api_key_from_xml
        ⟨pre ++ "<apikey>".data ++ mid ++ "</apikey>".data ++ post⟩ =
      .ok ⟨mid⟩ := by
  have hne1 : "<apikey>".data ≠ [] := by decide
  have hne2 : "</apikey>".data ≠ [] := by decide
  have hassoc : pre ++ "<apikey>".data ++ mid ++ "</apikey>".data ++ post =
      pre ++ ("<apikey>".data ++ (mid ++ ("</apikey>".data ++ post))) := by
    simp [List.append_assoc]
  have e1 : findSub "<apikey>".data
      (pre ++ "<apikey>".data ++ mid ++ "</apikey>".data ++ post) =
      some pre.length := by
    rw [hassoc]
    exact findSub_at_append pre "<apikey>".data
      (mid ++ ("</apikey>".data ++ post)) hne1 h1
  have hdrop : (pre ++ "<apikey>".data ++ mid ++ "</apikey>".data ++ post).drop
      (pre.length + 8) = mid ++ ("</apikey>".data ++ post) := by
    have hshape : pre ++ "<apikey>".data ++ mid ++ "</apikey>".data ++ post =
        (pre ++ "<apikey>".data) ++ (mid ++ ("</apikey>".data ++ post)) := by
      simp [List.append_assoc]
    rw [hshape]
    exact List.drop_left' (by simp)
  have e2 : findSub "</apikey>".data
      ((pre ++ "<apikey>".data ++ mid ++ "</apikey>".data ++ post).drop
        (pre.length + 8)) = some mid.length := by
    rw [hdrop]
    exact findSub_at_append mid "</apikey>".data post hne2 h2
  have hres := extract_ok_of_finds
    ⟨pre ++ "<apikey>".data ++ mid ++ "</apikey>".data ++ post⟩
    pre.length mid.length e1 e2
  rw [hres]
  have htake : ((pre ++ "<apikey>".data ++ mid ++ "</apikey>".data ++ post).drop
      (pre.length + 8)).take mid.length = mid := by
    rw [hdrop]
    exact List.take_left mid _
  show Except.ok
    (⟨((pre ++ "<apikey>".data ++ mid ++ "</apikey>".data ++ post).drop
      (pre.length + 8)).take mid.length⟩ : String) = Except.ok ⟨mid⟩
  rw [htake]

/-- Completeness half of C6: a successful extraction exhibits the marker
pattern around the returned key. -/
lemma extract_ok_decomp (content key : String)
    (h : extract_api_key_from_xml content = .ok key) :
    ∃ pre post : List Char,
      content.data = pre ++ "<apikey>".data ++ key.data ++
        "</apikey>".data ++ post := by
  unfold extract_api_key_from_xml at h
  split at h
  · rename_i s0 hf1
    split at h
    · rename_i e hf2
      injection h with h
      have hkey : key.data = (content.data.drop (s0 + 8)).take e := by
        rw [← h]
      have hp1 := findSub_prefix _ _ _ hf1
      have hp2 := findSub_prefix _ _ _ hf2
      rw [List.isPrefixOf_iff_prefix] at hp1 hp2
      obtain ⟨t, ht⟩ := hp1
      obtain ⟨r, hr⟩ := hp2
      refine ⟨content.data.take s0, r, ?_⟩
      have hds : content.data.drop (s0 + 8) = t := by
        have hdd : content.data.drop (s0 + 8) =
            (content.data.drop s0).drop 8 := by
          rw [List.drop_drop]
        rw [hdd, ← ht]
        exact List.drop_left' (by decide)
      have hsplit2 : t = key.data ++ ("</apikey>".data ++ r) := by
        rw [hds] at hkey hr
        calc t = t.take e ++ t.drop e := (List.take_append_drop e t).symm
          _ = key.data ++ ("</apikey>".data ++ r) := by rw [← hkey, hr]
      calc content.data
          = content.data.take s0 ++ content.data.drop s0 :=
            (List.take_append_drop s0 _).symm
        _ = content.data.take s0 ++ ("<apikey>".data ++ t) := by rw [← ht]
        _ = content.data.take s0 ++ ("<apikey>".data ++
              (key.data ++ ("</apikey>".data ++ r))) := by rw [← hsplit2]
        _ = content.data.take s0 ++ "<apikey>".data ++ key.data ++
              "</apikey>".data ++ r := by simp [List.append_assoc]
    · exact (Except.noConfusion h)
  · exact (Except.noConfusion h)

/-- C6: for every document decomposing as
`pre ++ "<apikey>" ++ mid ++ "</apikey>" ++ post` where the open tag does
not occur before `pre.length` and the close tag does not occur inside
`mid`, extraction returns exactly `mid` — the text between the first open
tag and the next close tag, verbatim; and every successful extraction comes
from such a decomposition (so extraction fails whenever the pattern is
absent). -/
theorem claim_C6_extract_between_markers :
    (∀ pre mid post : List Char,
        ¬ "<apikey>".data <:+: (pre ++ "<apikey>".data.dropLast) →
        ¬ "</apikey>".data <:+: (mid ++ "</apikey>".data.dropLast) →
        extract_api_key_from_xml
            ⟨pre ++ "<apikey>".data ++ mid ++ "</apikey>".data ++ post⟩ =
          .ok ⟨mid⟩) ∧
    (∀ content key : String,
        extract_api_key_from_xml content = .ok key →
        ∃ pre post : List Char,
          content.data = pre ++ "<apikey>".data ++ key.data ++
            "</apikey>".data ++ post) :=
  ⟨extract_between, extract_ok_decomp⟩

/-- Witness for C6 on a concrete daemon configuration document. -/
theorem claim_C6_witness :
    extract_api_key_from_xml "<gui><apikey>abc123def456</apikey></gui>" =
      .ok "abc123def456" := by
  have t := claim_C6_extract_between_markers.1 "<gui>".data
    "abc123def456".data "</gui>".data (by decide) (by decide)
  have hs : ("<gui><apikey>abc123def456</apikey></gui>" : String) =
      ⟨"<gui>".data ++ "<apikey>".data ++ "abc123def456".data ++
        "</apikey>".data ++ "</gui>".data⟩ := by decide
  rw [hs]
  exact t

/-- C7 counterexample to the claim as stated: with no saved key and a
daemon configuration file that exists but has no `<apikey>` element,
resolution fails with the `noApikeyElement` error, whose message is a fixed
string that does not include the searched path. -/
theorem claim_C7_counterexample :
    get_api_key ⟨none, none⟩ (some "<configuration></configuration>")
        "/home/user/.config/syncthing/config.xml" =
      .error .noApikeyElement ∧
    ConfigError.noApikeyElement.message = "No apikey element found in config" ∧
    ¬ "/home/user/.config/syncthing/config.xml".data <:+:
        "No apikey element found in config".data := by
  exact ⟨by rfl, rfl, by decide⟩

/-- C7 as amended: when the daemon configuration file does not exist (and no
key is saved), resolution fails with `credentialsNotFound`, whose message
contains the exact searched path; when the file exists but extraction fails,
that extraction error (which does not name the path) is returned unchanged. -/
theorem claim_C7_amended :
    (∀ (host : Option String) (path : String),
        get_api_key ⟨none, host⟩ none path =
          .error (.credentialsNotFound path) ∧
        path.data <:+: ((ConfigError.credentialsNotFound path).message).data) ∧
    (∀ (host : Option String) (c path : String) (e : ConfigError),
        extract_api_key_from_xml c = .error e →
        get_api_key ⟨none, host⟩ (some c) path = .error e) := by
  constructor
  · intro host path
    refine ⟨rfl, ?_⟩
    refine ⟨("No API key found. Either configure with 'syncthing config " ++
      "--api-key <KEY>' or ensure syncthing is running with config at \"").data,
      "\"".data, ?_⟩
    simp [ConfigError.message, String.data_append]
  · intro host c path e he
    simpa [get_api_key, extract_api_key_from_path] using he

/-- Witness for C7 as amended: the pass-through branch at a daemon file
without the marker element. -/
theorem claim_C7_witness :
    get_api_key ⟨none, none⟩ (some "<configuration><gui></gui></configuration>")
        "/home/user/.config/syncthing/config.xml" = .error .noApikeyElement :=
  claim_C7_amended.2 none "<configuration><gui></gui></configuration>"
    "/home/user/.config/syncthing/config.xml" .noApikeyElement (by rfl)

end Syncthing
